import Mathlib

/-
Shallow embedding of the codecrafters HTTP server (src/src/main.rs).

Strings are modelled as lists of characters (Str). The Rust string
operations used by the source are modelled faithfully:
  - str::split_whitespace       -> wsSplit
  - str::lines                  -> linesOf
  - str::splitn(2, sep)         -> splitFirst (first occurrence; None when absent)
  - str::split(sep)             -> splitAll (leftmost, non-overlapping)
  - str::starts_with            -> isPre
  - str::strip_prefix           -> stripPre
  - str::to_lowercase           -> lowerStr (ASCII, as all inputs of interest)
  - str::len (byte length)      -> byteLen (UTF-8 size)
The data model (Request, Response, Route), the parser (Request.new), the
header lookup (Request.get_header), the serializer (serialize, from the
Display impl), route matching (Route.does_match), the dispatch step of
Server::handle_connection (dispatch, lines 199-218 of main.rs) and the
handlers are translated directly from the source.
-/

namespace Http

set_option maxRecDepth 20000

abbrev Str := List Char

/-- Byte-wise starts_with test on character lists (str::starts_with). -/
def isPre : Str → Str → Bool
  | [], _ => true
  | _ :: _, [] => false
  | p :: ps, c :: cs => decide (p = c) && isPre ps cs

/-- str::to_lowercase, ASCII case folding as in Char.toLower. -/
def lowerStr (s : Str) : Str := s.map Char.toLower

/-- str::len — the UTF-8 byte length of the text. -/
def byteLen (s : Str) : Nat := s.foldl (fun n c => n + c.utf8Size) 0

/-- Decimal rendering of a number, as Display for integers in Rust. -/
def natStr (n : Nat) : Str := (Nat.repr n).data

/-- Split at the first occurrence of sep: some (before, after), or none when
sep does not occur. Models the effect of str::splitn(2, sep). -/
def splitFirst (sep : Str) : Str → Option (Str × Str)
  | [] => if isPre sep [] then some ([], ([] : Str).drop sep.length) else none
  | c :: cs =>
    if isPre sep (c :: cs) then some ([], (c :: cs).drop sep.length)
    else (splitFirst sep cs).map (fun ab => (c :: ab.1, ab.2))

/-- Fuelled worker for splitAll. -/
def splitAllAux (sep : Str) : Nat → Str → List Str
  | 0, s => [s]
  | n + 1, s =>
    match splitFirst sep s with
    | none => [s]
    | some ab => ab.1 :: splitAllAux sep n ab.2

/-- str::split(sep): all pieces between leftmost non-overlapping occurrences
of sep. The fuel s.length + 1 is ample: every found occurrence consumes at
least one character. -/
def splitAll (sep s : Str) : List Str := splitAllAux sep (s.length + 1) s

/-- The Unicode White_Space property, the set char::is_whitespace tests in
Rust: U+0009..U+000D, space, NEL, NBSP, Ogham space mark, the range
U+2000..U+200A, the line and paragraph separators, the narrow and medium
mathematical spaces, and the ideographic space. -/
def isWS (c : Char) : Bool :=
  [0x9, 0xA, 0xB, 0xC, 0xD, 0x20, 0x85, 0xA0, 0x1680,
    0x2028, 0x2029, 0x202F, 0x205F, 0x3000].contains c.toNat
  || (decide (0x2000 ≤ c.toNat) && decide (c.toNat ≤ 0x200A))

/-- Worker for wsSplit; the accumulator holds the current word reversed. -/
def wsSplitGo : Option Str → Str → List Str
  | none, [] => []
  | some w, [] => [w.reverse]
  | none, c :: cs =>
    if isWS c then wsSplitGo none cs else wsSplitGo (some [c]) cs
  | some w, c :: cs =>
    if isWS c then w.reverse :: wsSplitGo none cs
    else wsSplitGo (some (c :: w)) cs

/-- str::split_whitespace: maximal runs of characters that are not Unicode
whitespace. -/
def wsSplit (s : Str) : List Str := wsSplitGo none s

/-- Worker for linesOf; the accumulator holds the current line reversed. A
carriage return is removed only when it stands directly before the line
feed that ends the line; the final line ending is optional and a final line
is emitted verbatim, keeping a bare trailing carriage return. -/
def linesGo (cur : Str) : Str → List Str
  | [] => if cur = [] then [] else [cur.reverse]
  | c :: cs =>
    if c = '\n' then
      (if cur.head? = some '\r' then cur.tail else cur).reverse :: linesGo [] cs
    else linesGo (c :: cur) cs

/-- str::lines: lines split at a line feed or at a carriage return directly
followed by a line feed, terminators excluded; a string ending with a final
line ending yields the same lines as one without it. -/
def linesOf (s : Str) : List Str := linesGo [] s

/-- The request verbs; an unrecognized verb is a parse failure. -/
inductive Verb where
  | get
  | post
  deriving DecidableEq, Repr

/-- The parsed request (struct Request in main.rs). -/
structure Request where
  verb : Verb
  path : Str
  headers : List (Str × Str)
  body : Str
  deriving DecidableEq, Repr

/-- The response (struct Response in main.rs). -/
structure Response where
  status_code : Nat
  status_text : Str
  body : Str
  headers : List (Str × Str)
  deriving DecidableEq, Repr

def colonSp : Str := [':', ' ']

def crlf2 : Str := ['\r', '\n', '\r', '\n']

/-- One header line, as parsed by Request::new: split on the first ": ",
lower-case the part before it for storage; a line without the delimiter
yields the whole (lower-cased) line as key and an empty value. -/
def hdrOfLine (line : Str) : Str × Str :=
  match splitFirst colonSp line with
  | some kv => (lowerStr kv.1, kv.2)
  | none => (lowerStr line, [])

/-- The verb check of Request::new: the first whitespace token of the whole
input must be GET or POST. -/
def parseVerb (request : Str) : Option Verb :=
  match (wsSplit request).head? with
  | some w =>
    if w = "GET".data then some Verb.get
    else if w = "POST".data then some Verb.post
    else none
  | none => none

/-- Request::new (main.rs lines 20-47). The path is the second whitespace
token of the whole input, defaulting to "/"; the headers are all lines after
the first one; the body is piece number 1 of splitting on CRLF CRLF. -/
def Request.new (request : Str) : Option Request :=
  match parseVerb request with
  | none => none
  | some verb =>
    some
      { verb := verb
        path := ((wsSplit request).get? 1).getD "/".data
        headers := ((linesOf request).drop 1).map hdrOfLine
        body := ((splitAll crlf2 request).get? 1).getD [] }

/-- Request::get_header: the first stored pair whose key equals the
lower-cased lookup key. -/
def Request.get_header (req : Request) (key : Str) : Option Str :=
  (req.headers.find? (fun p => decide (p.1 = lowerStr key))).map (fun p => p.2)

def Response.new : Response := ⟨200, [], [], []⟩

def Response.set_body (r : Response) (b : Str) : Response := { r with body := b }

def Response.set_header (r : Response) (k v : Str) : Response :=
  { r with headers := r.headers ++ [(k, v)] }

def Response.set_status_code (r : Response) (c : Nat) : Response :=
  { r with status_code := c }

def Response.set_status_text (r : Response) (t : Str) : Response :=
  { r with status_text := t }

/-- Response::new_404: status 404, status text Not Found, body Not Found,
no headers. -/
def Response.new_404 : Response :=
  ((Response.new.set_status_code 404).set_status_text "Not Found".data).set_body
    "Not Found".data

/-- The Display impl for Response: status line, headers in insertion order,
blank line, body. -/
def serialize (r : Response) : Str :=
  ("HTTP/1.1 ".data ++ natStr r.status_code ++ [' '] ++ r.status_text ++ "\r\n".data)
    ++ r.headers.foldl (fun acc kv => acc ++ kv.1 ++ colonSp ++ kv.2 ++ "\r\n".data) []
    ++ "\r\n".data ++ r.body

/-- struct Route in main.rs: a path (used as a byte-wise path start) and a
verb. -/
structure Route where
  path : Str
  verb : Verb

/-- Route::does_match: the verbs are equal and the route path is a byte-wise
start of the request path. -/
def Route.does_match (r : Route) (req : Request) : Bool :=
  decide (r.verb = req.verb) && isPre r.path req.path

def Handler := Request → Response

/-- The dispatch step of Server::handle_connection (main.rs lines 199-218):
the root handler for the exact path "/", else the first registered route
that matches, else the standard 404. -/
def dispatch (root_handler : Option Handler) (routes : List (Route × Handler))
    (req : Request) : Response :=
  if req.path = "/".data then
    match root_handler with
    | some h => h req
    | none => Response.new_404
  else
    match routes.find? (fun rh => rh.1.does_match req) with
    | some rh => rh.2 req
    | none => Response.new_404

/-- Server::handle_connection after the read: parse, and on failure return
without writing anything; on success write exactly the serialized response
chosen by dispatch. The result is the byte sequence written to the
connection, none when nothing is written. -/
def handle_connection (root_handler : Option Handler)
    (routes : List (Route × Handler)) (raw : Str) : Option Str :=
  match Request.new raw with
  | none => none
  | some req => some (serialize (dispatch root_handler routes req))

/-- str::strip_prefix: some remainder when the pattern starts the string,
none otherwise. -/
def stripPre (p s : Str) : Option Str :=
  if isPre p s then some (s.drop p.length) else none

/-- handle_root: a fresh 200 response with empty text, body and headers. -/
def handle_root : Handler := fun _ => Response.new

/-- handle_echo_request (main.rs lines 228-237). -/
def handle_echo_request : Handler := fun req =>
  let echo_string := (stripPre "/echo/".data req.path).getD []
  ((Response.new.set_header "Content-Type".data "text/plain".data).set_header
      "Content-Length".data (natStr (byteLen echo_string))).set_body echo_string

/-- handle_user_agent_request (main.rs lines 239-248). -/
def handle_user_agent_request : Handler := fun req =>
  let user_agent := (req.get_header "User-Agent".data).getD "Unknown".data
  ((Response.new.set_header "Content-Type".data "text/plain".data).set_header
      "Content-Length".data (natStr (byteLen user_agent))).set_body user_agent

/-- The route table registered by main (main.rs lines 303-321), in
registration order. The two file-backed handlers perform file system
input/output and are taken as parameters. -/
def mainRoutes (files_get files_post : Handler) : List (Route × Handler) :=
  [ (⟨"/echo".data, Verb.get⟩, handle_echo_request),
    (⟨"/user-agent".data, Verb.get⟩, handle_user_agent_request),
    (⟨"/files".data, Verb.get⟩, files_get),
    (⟨"/files".data, Verb.post⟩, files_post) ]

/-- Stated from the words of the specification for claim C2: the body is
everything after the first blank-line separator, empty when absent. This is
the comparison definition for the refinement check; it is not the source
behavior. -/
def specBodyAfterFirst (s : Str) : Str :=
  match splitFirst crlf2 s with
  | some ab => ab.2
  | none => []

/-- The amended wording for claim C2: the body is the text after the first
blank-line separator up to, not including, the next separator (to the end
when there is no further separator); empty when no separator occurs. -/
def specBodyBetween (s : Str) : Str :=
  match splitFirst crlf2 s with
  | none => []
  | some ab =>
    match splitFirst crlf2 ab.2 with
    | none => ab.2
    | some cd => cd.1

/-- A raw request whose body itself contains the blank-line separator. -/
def rawTrunc : Str := "GET / HTTP/1.1\r\n\r\nA\r\n\r\nB".data

/-- A parsed GET request for the path /filesx. -/
def reqFilesx : Request := ⟨Verb.get, "/filesx".data, [], []⟩

/-- The registered route table with placeholder file handlers. -/
def routesX : List (Route × Handler) :=
  mainRoutes (fun _ => Response.new_404) (fun _ => Response.new_404)

/-! Helper lemmas. -/

theorem find?_first {α : Type _} (p : α → Bool) (l : List α) :
    (∃ pre a suf, l = pre ++ a :: suf ∧ (∀ b ∈ pre, p b = false) ∧ p a = true
      ∧ l.find? p = some a)
    ∨ ((∀ a ∈ l, p a = false) ∧ l.find? p = none) := by
  induction l with
  | nil => exact Or.inr ⟨by simp, by simp [List.find?]⟩
  | cons a l ih =>
    cases ha : p a with
    | true =>
      exact Or.inl ⟨[], a, l, rfl, by simp, ha, by simp [List.find?, ha]⟩
    | false =>
      rcases ih with ⟨pre, b, suf, hdec, hpre, hb, hf⟩ | ⟨hall, hf⟩
      · refine Or.inl ⟨a :: pre, b, suf, by rw [hdec]; rfl, ?_, hb,
          by simp [List.find?, ha, hf]⟩
        intro x hx
        rcases List.mem_cons.mp hx with h | h
        · rw [h]; exact ha
        · exact hpre x h
      · refine Or.inr ⟨?_, by simp [List.find?, ha, hf]⟩
        intro x hx
        rcases List.mem_cons.mp hx with h | h
        · rw [h]; exact ha
        · exact hall x h

theorem isPre_append (p t : Str) : isPre p (p ++ t) = true := by
  induction p with
  | nil => rfl
  | cons c cs ih => simp [isPre, ih]

theorem drop_len_append (p t : Str) : (p ++ t).drop p.length = t := by
  simp

theorem splitFirst_nil (sep : Str) (h : sep ≠ []) : splitFirst sep [] = none := by
  cases sep with
  | nil => exact absurd rfl h
  | cons c cs => simp [splitFirst, isPre]

theorem splitAll_get1 (sep s : Str) (hsep : sep ≠ []) :
    ((splitAll sep s).get? 1).getD []
      = (match splitFirst sep s with
         | none => []
         | some ab =>
           match splitFirst sep ab.2 with
           | none => ab.2
           | some cd => cd.1) := by
  cases hs : splitFirst sep s with
  | none => simp [splitAll, splitAllAux, hs]
  | some ab =>
    obtain ⟨a, b⟩ := ab
    cases s with
    | nil => rw [splitFirst_nil sep hsep] at hs; cases hs
    | cons c cs =>
      simp only [splitAll, List.length_cons, splitAllAux, hs]
      cases hb : splitFirst sep b with
      | none => simp [splitAllAux, hb]
      | some cd => simp [splitAllAux, hb]

theorem Request.new_fields (raw : Str) (req : Request)
    (h : Request.new raw = some req) :
    req.path = ((wsSplit raw).get? 1).getD "/".data
    ∧ req.headers = ((linesOf raw).drop 1).map hdrOfLine
    ∧ req.body = ((splitAll crlf2 raw).get? 1).getD [] := by
  unfold Request.new at h
  cases hv : parseVerb raw with
  | none => rw [hv] at h; cases h
  | some v =>
    rw [hv] at h
    have h2 := Option.some.inj h
    rw [← h2]
    exact ⟨rfl, rfl, rfl⟩

/-! Claim theorems. -/

/-- Claim C6: serializing the standard failure response new_404 (status 404,
status text Not Found, body Not Found, no headers) yields byte-exactly the
string HTTP/1.1 404 Not Found CRLF CRLF Not Found. -/
theorem c6_serialize_new_404 :
    serialize Response.new_404 = "HTTP/1.1 404 Not Found\r\n\r\nNot Found".data := by
  decide

/-- Claim C7: for every request, the user-agent handler returns status 200
whose body is the User-Agent header value looked up case-insensitively (the
lookup key is lower-cased, so the stored lower-cased key user-agent matches
the lookup User-Agent), or the literal Unknown when absent, and sets exactly
the headers Content-Type: text/plain and Content-Length equal to the byte
length of the body. -/
theorem c7_user_agent_handler (req : Request) :
    handle_user_agent_request req
      = { status_code := 200, status_text := [],
          body := (req.get_header "User-Agent".data).getD "Unknown".data,
          headers := [("Content-Type".data, "text/plain".data),
            ("Content-Length".data,
              natStr (byteLen ((req.get_header "User-Agent".data).getD "Unknown".data)))] }
    ∧ lowerStr "User-Agent".data = "user-agent".data
    ∧ req.get_header "User-Agent".data
      = (req.headers.find? (fun p => decide (p.1 = "user-agent".data))).map (fun p => p.2) := by
  refine ⟨rfl, by decide, ?_⟩
  have hl : lowerStr "User-Agent".data = "user-agent".data := by decide
  rw [Request.get_header, hl]

/-- Claim C8: for every GET request whose path is /echo/ followed by the
text t, the echo handler strips the pattern from the path and returns status
200 with body t, header Content-Type: text/plain and header Content-Length
equal to the byte length of t. -/
theorem c8_echo_handler (req : Request) (t : Str) (_hverb : req.verb = Verb.get)
    (hpath : req.path = "/echo/".data ++ t) :
    handle_echo_request req
      = { status_code := 200, status_text := [], body := t,
          headers := [("Content-Type".data, "text/plain".data),
            ("Content-Length".data, natStr (byteLen t))] } := by
  have hs : stripPre "/echo/".data req.path = some t := by
    rw [hpath, stripPre, if_pos (isPre_append "/echo/".data t), drop_len_append]
  simp only [handle_echo_request, hs, Option.getD_some]
  rfl

/-- Witness for claim C8 at the concrete request GET /echo/abc. -/
theorem c8_echo_handler_witness :
    (⟨Verb.get, "/echo/abc".data, [], []⟩ : Request).verb = Verb.get
    ∧ ("/echo/abc".data : Str) = "/echo/".data ++ "abc".data
    ∧ handle_echo_request ⟨Verb.get, "/echo/abc".data, [], []⟩
      = { status_code := 200, status_text := [], body := "abc".data,
          headers := [("Content-Type".data, "text/plain".data),
            ("Content-Length".data, "3".data)] } :=
  ⟨rfl, by decide,
    c8_echo_handler ⟨Verb.get, "/echo/abc".data, [], []⟩ "abc".data rfl (by decide)⟩

/-- Claim C1: for every parsed request whose path is not exactly "/",
dispatch selects the handler of the first route in registration order whose
verb equals the request verb and whose route path is a byte-wise start of
the request path (no longest-match tie-break), and produces the standard 404
response when no registered route matches; in particular a GET request for
/filesx selects the handler registered under /files. -/
theorem c1_dispatch_first_match (root_handler : Option Handler)
    (routes : List (Route × Handler)) (req : Request)
    (hpath : req.path ≠ "/".data) :
    ((∃ pre rh suf, routes = pre ++ rh :: suf
        ∧ (∀ rh2 ∈ pre, ¬ (rh2.1.verb = req.verb ∧ isPre rh2.1.path req.path = true))
        ∧ (rh.1.verb = req.verb ∧ isPre rh.1.path req.path = true)
        ∧ dispatch root_handler routes req = rh.2 req)
      ∨ ((∀ rh ∈ routes, ¬ (rh.1.verb = req.verb ∧ isPre rh.1.path req.path = true))
          ∧ dispatch root_handler routes req = Response.new_404))
    ∧ (∀ files_get files_post : Handler,
        dispatch (some handle_root) (mainRoutes files_get files_post)
            ⟨Verb.get, "/filesx".data, [], []⟩
          = files_get ⟨Verb.get, "/filesx".data, [], []⟩) := by
  constructor
  · have hmatch : ∀ rh : Route × Handler,
        rh.1.does_match req = true
          ↔ (rh.1.verb = req.verb ∧ isPre rh.1.path req.path = true) := by
      intro rh
      simp [Route.does_match, Bool.and_eq_true, decide_eq_true_eq]
    rcases find?_first (fun rh => rh.1.does_match req) routes with
      ⟨pre, a, suf, hdec, hpre, ha, hf⟩ | ⟨hall, hf⟩
    · refine Or.inl ⟨pre, a, suf, hdec, ?_, (hmatch a).mp ha, ?_⟩
      · intro rh2 h2 hc
        exact absurd ((hmatch rh2).mpr hc) (by simp [hpre rh2 h2])
      · simp only [dispatch]
        rw [if_neg hpath, hf]
    · refine Or.inr ⟨?_, ?_⟩
      · intro rh h hc
        exact absurd ((hmatch rh).mpr hc) (by simp [hall rh h])
      · simp only [dispatch]
        rw [if_neg hpath, hf]
  · intro files_get files_post
    rfl

/-- Witness for claim C1 at the registered route table and the request
GET /filesx. -/
theorem c1_dispatch_first_match_witness :
    reqFilesx.path ≠ "/".data
    ∧ (((∃ pre rh suf, routesX = pre ++ rh :: suf
          ∧ (∀ rh2 ∈ pre,
              ¬ (rh2.1.verb = reqFilesx.verb ∧ isPre rh2.1.path reqFilesx.path = true))
          ∧ (rh.1.verb = reqFilesx.verb ∧ isPre rh.1.path reqFilesx.path = true)
          ∧ dispatch none routesX reqFilesx = rh.2 reqFilesx)
        ∨ ((∀ rh ∈ routesX,
              ¬ (rh.1.verb = reqFilesx.verb ∧ isPre rh.1.path reqFilesx.path = true))
            ∧ dispatch none routesX reqFilesx = Response.new_404))
      ∧ (∀ files_get files_post : Handler,
          dispatch (some handle_root) (mainRoutes files_get files_post)
              ⟨Verb.get, "/filesx".data, [], []⟩
            = files_get ⟨Verb.get, "/filesx".data, [], []⟩)) :=
  ⟨by decide, c1_dispatch_first_match none routesX reqFilesx (by decide)⟩

/-- Claim C5: for every raw input whose first whitespace token is neither
GET nor POST (including empty input), parsing fails and the connection
handler writes no response bytes at all. -/
theorem c5_unknown_verb_no_response (root_handler : Option Handler)
    (routes : List (Route × Handler)) (raw : Str)
    (h1 : (wsSplit raw).head? ≠ some "GET".data)
    (h2 : (wsSplit raw).head? ≠ some "POST".data) :
    Request.new raw = none ∧ handle_connection root_handler routes raw = none := by
  have hv : parseVerb raw = none := by
    unfold parseVerb
    cases hw : (wsSplit raw).head? with
    | none => rfl
    | some w =>
      show (if w = "GET".data then some Verb.get
        else if w = "POST".data then some Verb.post else none) = none
      rw [if_neg (show ¬ w = "GET".data from fun he => h1 (by rw [hw, he])),
        if_neg (show ¬ w = "POST".data from fun he => h2 (by rw [hw, he]))]
  constructor
  · simp [Request.new, hv]
  · simp [handle_connection, Request.new, hv]

/-- Witness for claim C5 at the concrete raw input DELETE / HTTP/1.1. -/
theorem c5_unknown_verb_no_response_witness :
    (wsSplit "DELETE / HTTP/1.1".data).head? ≠ some "GET".data
    ∧ (wsSplit "DELETE / HTTP/1.1".data).head? ≠ some "POST".data
    ∧ Request.new "DELETE / HTTP/1.1".data = none
    ∧ handle_connection none [] "DELETE / HTTP/1.1".data = none :=
  ⟨by decide, by decide,
    c5_unknown_verb_no_response none [] "DELETE / HTTP/1.1".data (by decide) (by decide)⟩

/-- Claim C10: a parsed GET request whose path starts with /echo but not
with /echo/ is still dispatched to the echo handler (the first registered
route), which answers 200 with an empty body and Content-Length: 0. -/
theorem c10_echo_without_slash (files_get files_post : Handler) (req : Request)
    (hverb : req.verb = Verb.get)
    (h1 : isPre "/echo".data req.path = true)
    (h2 : isPre "/echo/".data req.path = false) :
    (mainRoutes files_get files_post).find? (fun rh => rh.1.does_match req)
      = some (⟨"/echo".data, Verb.get⟩, handle_echo_request)
    ∧ dispatch (some handle_root) (mainRoutes files_get files_post) req
      = { status_code := 200, status_text := [], body := [],
          headers := [("Content-Type".data, "text/plain".data),
            ("Content-Length".data, "0".data)] } := by
  have hne : req.path ≠ "/".data := by
    intro h
    rw [h] at h1
    exact absurd h1 (by decide)
  have hm : (Route.mk "/echo".data Verb.get).does_match req = true := by
    simp [Route.does_match, hverb, h1]
  have hfind : (mainRoutes files_get files_post).find? (fun rh => rh.1.does_match req)
      = some (⟨"/echo".data, Verb.get⟩, handle_echo_request) := by
    simp only [mainRoutes, List.find?, hm]
  refine ⟨hfind, ?_⟩
  have hb : stripPre "/echo/".data req.path = none := by
    rw [stripPre, if_neg (by simp [h2])]
  simp only [dispatch]
  rw [if_neg hne, hfind]
  simp only [handle_echo_request]
  rw [hb]
  decide

/-- Witness for claim C10 at the concrete request GET /echoes. -/
theorem c10_echo_without_slash_witness :
    (⟨Verb.get, "/echoes".data, [], []⟩ : Request).verb = Verb.get
    ∧ isPre "/echo".data "/echoes".data = true
    ∧ isPre "/echo/".data "/echoes".data = false
    ∧ ((mainRoutes (fun _ => Response.new_404) (fun _ => Response.new_404)).find?
          (fun rh => rh.1.does_match ⟨Verb.get, "/echoes".data, [], []⟩)
        = some (⟨"/echo".data, Verb.get⟩, handle_echo_request)
      ∧ dispatch (some handle_root)
          (mainRoutes (fun _ => Response.new_404) (fun _ => Response.new_404))
          ⟨Verb.get, "/echoes".data, [], []⟩
        = { status_code := 200, status_text := [], body := [],
            headers := [("Content-Type".data, "text/plain".data),
              ("Content-Length".data, "0".data)] }) :=
  ⟨rfl, by decide, by decide,
    c10_echo_without_slash (fun _ => Response.new_404) (fun _ => Response.new_404)
      ⟨Verb.get, "/echoes".data, [], []⟩ rfl (by decide) (by decide)⟩

/-- Counterexample to claim C2: on the raw input GET / HTTP/1.1 CRLF CRLF A
CRLF CRLF B, parsing produces the body A, while everything after the first
blank-line separator is A CRLF CRLF B — a body containing the separator is
not kept in full. -/
theorem c2_body_counterexample :
    (Request.new rawTrunc).map Request.body = some "A".data
    ∧ specBodyAfterFirst rawTrunc = "A\r\n\r\nB".data
    ∧ ("A".data : Str) ≠ "A\r\n\r\nB".data :=
  ⟨by decide, by decide, by decide⟩

/-- Claim C2 as amended: the parsed body is the text after the first
blank-line separator up to, not including, the next occurrence of the
separator (to the end of the input when there is no further occurrence), and
it is empty when no separator is present. -/
theorem c2_body_between_separators (raw : Str) (req : Request)
    (h : Request.new raw = some req) :
    req.body = specBodyBetween raw := by
  have hb := (Request.new_fields raw req h).2.2
  rw [hb, splitAll_get1 crlf2 raw (by decide)]
  rfl

/-- Witness for the amended claim C2 at a concrete raw input with one
separator. -/
theorem c2_body_between_separators_witness :
    Request.new "GET /\r\n\r\nhello".data
      = some ⟨Verb.get, "/".data, [([], []), ("hello".data, [])], "hello".data⟩
    ∧ (⟨Verb.get, "/".data, [([], []), ("hello".data, [])],
        "hello".data⟩ : Request).body
      = specBodyBetween "GET /\r\n\r\nhello".data :=
  ⟨by decide,
    c2_body_between_separators "GET /\r\n\r\nhello".data
      ⟨Verb.get, "/".data, [([], []), ("hello".data, [])], "hello".data⟩ (by decide)⟩

/-- Counterexample to claim C4: the raw input GET foo parses successfully
with path foo, which does not start with a slash. -/
theorem c4_path_counterexample :
    (Request.new "GET foo".data).map Request.path = some "foo".data
    ∧ isPre "/".data "foo".data = false :=
  ⟨by decide, by decide⟩

/-- Claim C4 as amended: on every successful parse the path is the second
whitespace-separated token of the input when present and "/" when absent;
nothing enforces that it starts with a slash. -/
theorem c4_path_second_token (raw : Str) (req : Request)
    (h : Request.new raw = some req) :
    req.path = ((wsSplit raw).get? 1).getD "/".data
    ∧ ((wsSplit raw).get? 1 = none → req.path = "/".data) := by
  have hp := (Request.new_fields raw req h).1
  refine ⟨hp, ?_⟩
  intro hn
  rw [hp, hn]
  rfl

/-- Witness for the amended claim C4 at the concrete raw input GET, whose
request line has no second token. -/
theorem c4_path_second_token_witness :
    Request.new "GET".data = some ⟨Verb.get, "/".data, [], []⟩
    ∧ ((⟨Verb.get, "/".data, [], []⟩ : Request).path
        = ((wsSplit "GET".data).get? 1).getD "/".data
      ∧ ((wsSplit "GET".data).get? 1 = none
          → (⟨Verb.get, "/".data, [], []⟩ : Request).path = "/".data)) :=
  ⟨by decide,
    c4_path_second_token "GET".data ⟨Verb.get, "/".data, [], []⟩ (by decide)⟩

end Http
